import Mathlib

/-!
# Verification of the `kitties` pallet (src/pallets/kitties/src/lib.rs)

A shallow embedding of the pallet's state-transition logic.  Storage items
(`Kitties` double map, `NextKittyId` counter, `KittyPrices` map) become fields
of an explicit `PalletState`; each dispatchable becomes a function
`... → PalletState → PalletState × Option DispatchError` returning the
post-call state together with the error, if any.

Modelling decisions, all taken from the source:

* Bytes (`u8`) are `Nat` values below 256; `u32` values are `Nat` below 2^32,
  with the `checked_add` overflow test made explicit against `u32Max`.
* `T::AccountId` is `Nat` (the test runtime instantiates it with `u64`).
* `StorageDoubleMap::try_mutate_exists` / `StorageMap::try_mutate_exists`
  read the slot, run the closure on a local `Option`, and write the local
  value back only when the closure returns `Ok`; on `Err` the slot keeps its
  pre-call content.  Direct `insert` calls inside a closure hit storage
  immediately.  This pallet is built on `decl_module!`/`frame_system::Trait`
  (Substrate 2.0), where dispatch is NOT transactional: storage writes made
  before an error are not rolled back when the dispatchable returns `Err`.
* The currency collaborator (`T::Currency::transfer` with
  `ExistenceRequirement::KeepAlive`) is external to the repository; it is
  modelled as an abstract parameter `pay : Cur → Account → Account → Nat →
  Option Cur` over an abstract currency-state type, succeeding or failing as
  the theorems' hypotheses dictate.
* `random_value` (a blake2-128 hash of seed, sender and extrinsic index) is
  external input; `create` and `breed` take the resulting 16 bytes as an
  explicit argument `rnd`.
* In `buy` (lib.rs line 191) the inner `try_mutate_exists` result is
  discarded by a stray semicolon, which cannot type-check in Rust
  (the outer closure is annotated `-> DispatchResult`); the embedding uses
  the minimal well-typed reading, in which the inner result is the outer
  closure's value.
-/

namespace Kitties

/-- Account identifiers (`T::AccountId`; `u64` in the test runtime). -/
abbrev Account : Type := Nat

/-- `pub struct Kitty([u8; 16])` — the 16 DNA bytes, stored as a list. -/
structure Kitty where
  dna : List Nat
  deriving DecidableEq, Repr

/-- `pub enum KittyGender { Male, Female }` -/
inductive KittyGender : Type
  | Male
  | Female
  deriving DecidableEq, Repr

/-- `Kitty::gender`: parity of byte 0 (`self.0[0] % 2 == 0` gives Male). -/
def Kitty.gender (k : Kitty) : KittyGender :=
  if k.dna.headD 0 % 2 = 0 then KittyGender.Male else KittyGender.Female

/-- `decl_error!` — the pallet's error enum. -/
inductive KittyError : Type
  | NoneValue
  | StorageOverflow
  | KittiesIdOverflow
  | SameGenderBreed
  | KittenNotFound
  | WrongDNA
  | NotForSale
  | PriceTooLow
  | BuyFromSelf
  deriving DecidableEq, Repr

/-- A `DispatchError` reaching the caller: either one of the pallet's own
errors, or an error bubbled up from the external currency collaborator
(`T::Currency::transfer` inside `buy`). -/
inductive DispatchError : Type
  | pallet (e : KittyError)
  | currency
  deriving DecidableEq, Repr

/-- `decl_event!` — the pallet's events, in deposit order. -/
inductive Event : Type
  | KittyCreated (owner : Account) (id : Nat) (k : Kitty)
  | KittyBreed (owner : Account) (k1 k2 child : Kitty)
  | KittyTransferred (oldOwner newOwner : Account) (k : Kitty)
  | KittyPriceUpdated (owner : Account) (id : Nat) (price : Option Nat)
  | KittySold (seller buyer : Account) (id : Nat) (price : Option Nat)
  deriving DecidableEq, Repr

/-- `fn combine_dna(dna1: u8, dna2: u8, selector: u8) -> u8 {
(!selector & dna1) | (selector & dna2) }`.  On `u8`, `!selector` is
`255 ^^^ selector`. -/
def combine_dna (dna1 dna2 selector : Nat) : Nat :=
  ((255 ^^^ selector) &&& dna1) ||| (selector &&& dna2)

/-- `u32::MAX`, the value at which `checked_add(1)` fails. -/
def u32Max : Nat := 4294967295

/-- `get_next_kitty_id`: `NextKittyId::try_mutate` returns the current
counter and stores `counter + 1`, failing with `KittiesIdOverflow` when
`checked_add(1)` overflows, i.e. exactly when the counter is `u32::MAX`
(counters are `u32`, so always `≤ u32Max`).  On success the result is
`(returned id, new counter)`; on failure `try_mutate` leaves the storage
value unchanged. -/
def get_next_kitty_id (next : Nat) : Except KittyError (Nat × Nat) :=
  if next = u32Max then Except.error KittyError.KittiesIdOverflow
  else Except.ok (next, next + 1)

/-- The pallet's storage plus the event sink. `kitties` is the
`Kitties` double map `(AccountId, u32) → Option Kitty`; `nextKittyId` the
`NextKittyId` counter; `kittyPrices` the `KittyPrices` map
`u32 → Option Balance`; `events` the deposited events in order. -/
structure PalletState where
  kitties : Account → Nat → Option Kitty
  nextKittyId : Nat
  kittyPrices : Nat → Option Nat
  events : List Event

/-- `Kitties::<T>::insert(owner, id, k)`. -/
def insertKitty (m : Account → Nat → Option Kitty) (a : Account) (i : Nat)
    (k : Kitty) : Account → Nat → Option Kitty :=
  fun a2 i2 => if a2 = a ∧ i2 = i then some k else m a2 i2

/-- `Kitties::<T>::remove(owner, id)` (the write-back of a taken slot). -/
def removeKitty (m : Account → Nat → Option Kitty) (a : Account) (i : Nat) :
    Account → Nat → Option Kitty :=
  fun a2 i2 => if a2 = a ∧ i2 = i then none else m a2 i2

/-- Writing slot `i` of the `KittyPrices` map (insert for `some`,
remove for `none`). -/
def writePrice (m : Nat → Option Nat) (i : Nat) (p : Option Nat) :
    Nat → Option Nat :=
  fun i2 => if i2 = i then p else m i2

/-- `pub fn create(origin)`: hash-derived DNA (`rnd`, external input) becomes
the new kitty; a fresh id is allocated and the kitty inserted under the
sender.  Allocation failure aborts with no storage left modified. -/
def create (sender : Account) (rnd : List Nat) (s : PalletState) :
    PalletState × Option DispatchError :=
  let kitty : Kitty := ⟨rnd⟩
  match get_next_kitty_id s.nextKittyId with
  | Except.error e => (s, some (DispatchError.pallet e))
  | Except.ok (kittyId, next2) =>
    ({ s with
        kitties := insertKitty s.kitties sender kittyId kitty
        nextKittyId := next2
        events := s.events ++ [Event.KittyCreated sender kittyId kitty] },
      none)

/-- The 16-byte crossover loop of `breed`:
`new_kitty_dna[i] = combine_dna(first.dna()[i], second.dna()[i], selector[i])`
for `i in 0..16`. -/
def crossover (d1 d2 sel : List Nat) : List Nat :=
  (List.range 16).map fun t => combine_dna (d1.getD t 0) (d2.getD t 0) (sel.getD t 0)

/-- `pub fn breed(origin, first_kitty_id, second_kitty_id)`: looks up both
parents under the sender (owner-scoped; a kitty owned by someone else is
`None` here), rejects equal genders, combines DNA with the random selector
`rnd`, allocates a fresh id and stores the child under the sender. -/
def breed (sender : Account) (rnd : List Nat) (firstKittyId secondKittyId : Nat)
    (s : PalletState) : PalletState × Option DispatchError :=
  match s.kitties sender firstKittyId with
  | none => (s, some (DispatchError.pallet KittyError.KittenNotFound))
  | some firstKitty =>
    match s.kitties sender secondKittyId with
    | none => (s, some (DispatchError.pallet KittyError.KittenNotFound))
    | some secondKitty =>
      if firstKitty.gender = secondKitty.gender then
        (s, some (DispatchError.pallet KittyError.SameGenderBreed))
      else
        match get_next_kitty_id s.nextKittyId with
        | Except.error e => (s, some (DispatchError.pallet e))
        | Except.ok (kittyId, next2) =>
          let newKitty : Kitty := ⟨crossover firstKitty.dna secondKitty.dna rnd⟩
          ({ s with
              kitties := insertKitty s.kitties sender kittyId newKitty
              nextKittyId := next2
              events := s.events ++
                [Event.KittyBreed sender firstKitty secondKitty newKitty] },
            none)

/-- `pub fn transfer(origin, kitty_id, new_owner_id)`:
`try_mutate_exists` on `(sender, kitty_id)`.  If `sender == new_owner_id`,
the closure only checks existence and returns `Ok`, so the slot is written
back unchanged and no event is deposited; otherwise the kitty is taken,
inserted under the new owner, the event deposited, and the `Ok` write-back
removes the sender's slot.  A missing kitty aborts with `KittenNotFound`
either way.  `KittyPrices` is not touched. -/
def transfer (sender : Account) (kittyId : Nat) (newOwner : Account)
    (s : PalletState) : PalletState × Option DispatchError :=
  match s.kitties sender kittyId with
  | none => (s, some (DispatchError.pallet KittyError.KittenNotFound))
  | some kitty =>
    if sender = newOwner then
      ({ s with kitties := insertKitty s.kitties sender kittyId kitty }, none)
    else
      ({ s with
          kitties := removeKitty (insertKitty s.kitties newOwner kittyId kitty)
            sender kittyId
          events := s.events ++ [Event.KittyTransferred sender newOwner kitty] },
        none)

/-- `pub fn set_price(origin, kitty_id, new_price)`: requires
`Kitties::contains_key(sender, kitty_id)`, then unconditionally overwrites
the `KittyPrices` slot with `new_price` and deposits the event. -/
def set_price (sender : Account) (kittyId : Nat) (newPrice : Option Nat)
    (s : PalletState) : PalletState × Option DispatchError :=
  if (s.kitties sender kittyId).isSome then
    ({ s with
        kittyPrices := writePrice s.kittyPrices kittyId newPrice
        events := s.events ++ [Event.KittyPriceUpdated sender kittyId newPrice] },
      none)
  else (s, some (DispatchError.pallet KittyError.KittenNotFound))

/-- `pub fn buy(origin, owner, kitty_id, max_price)`, closely following the
nested `try_mutate_exists` calls.  `pay c sender owner price` models
`T::Currency::transfer(&sender, &owner, price, KeepAlive)` over abstract
currency state `c`, returning the new currency state or `none` on failure.

Trace of the source: the sender/owner equality check; outer
`try_mutate_exists` on `Kitties(owner, kitty_id)` whose closure takes the
kitty (`KittenNotFound` if absent); inner `try_mutate_exists` on
`KittyPrices(kitty_id)` whose closure takes the price (`NotForSale` if
absent), checks `max_price >= price` (`PriceTooLow`), then performs the
direct write `Kitties::insert(&sender, kitty_id, kitty)` and only afterwards
the fallible currency transfer.  If the currency transfer fails, both
`try_mutate_exists` levels skip their write-backs — the owner's slot and the
price slot keep their old content — but the direct insert under the sender
has already hit storage and, dispatch being non-transactional, persists.
On success the inner write-back removes the price, the outer write-back
removes the owner's slot, and the event is deposited. -/
def buy {Cur : Type} (pay : Cur → Account → Account → Nat → Option Cur)
    (sender owner : Account) (kittyId maxPrice : Nat)
    (s : PalletState) (c : Cur) : (PalletState × Cur) × Option DispatchError :=
  if sender = owner then ((s, c), some (DispatchError.pallet KittyError.BuyFromSelf))
  else
    match s.kitties owner kittyId with
    | none => ((s, c), some (DispatchError.pallet KittyError.KittenNotFound))
    | some kitty =>
      match s.kittyPrices kittyId with
      | none => ((s, c), some (DispatchError.pallet KittyError.NotForSale))
      | some price =>
        if maxPrice < price then
          ((s, c), some (DispatchError.pallet KittyError.PriceTooLow))
        else
          let s1 := { s with kitties := insertKitty s.kitties sender kittyId kitty }
          match pay c sender owner price with
          | none => ((s1, c), some DispatchError.currency)
          | some c2 =>
            (({ s1 with
                kitties := removeKitty s1.kitties owner kittyId
                kittyPrices := writePrice s.kittyPrices kittyId none
                events := s1.events ++
                  [Event.KittyTransferred sender owner kitty] },
              c2), none)

end Kitties

namespace Kitties

/-! ## Supporting lemmas -/

set_option maxRecDepth 4000 in
/-- Masking with `255` is the identity on bytes. -/
theorem land_255_eq (a : Nat) (ha : a < 256) : 255 &&& a = a := by
  revert a ha
  decide

/-- A byte has no bits at positions `≥ 8`. -/
theorem byte_testBit_high {x t : Nat} (hx : x < 256) (ht : 8 ≤ t) :
    x.testBit t = false := by
  refine Nat.testBit_lt_two_pow (lt_of_lt_of_le hx ?_)
  calc (256 : Nat) = 2 ^ 8 := by norm_num
    _ ≤ 2 ^ t := Nat.pow_le_pow_right (by norm_num) ht

/-- The bits of `255` are exactly positions `0..7`. -/
theorem testBit_255 (t : Nat) : Nat.testBit 255 t = decide (t < 8) := by
  simpa using Nat.testBit_two_pow_sub_one 8 t

/-! ## Claim theorems -/

/-- C7: `combine_dna a b s` equals `(!s & a) | (s & b)`; bit `t` of the result
comes from `a` where selector bit `t` is 0 and from `b` where it is 1; and for
bytes, selector `0x00` returns `a` while selector `0xFF` returns `b`. -/
theorem C7_combine_dna_spec (a b s : Nat) :
    combine_dna a b s = ((255 ^^^ s) &&& a) ||| (s &&& b) ∧
    (a < 256 → combine_dna a b 0 = a) ∧
    (b < 256 → combine_dna a b 255 = b) ∧
    (a < 256 → b < 256 → s < 256 → ∀ t,
      (combine_dna a b s).testBit t =
        (if s.testBit t then b.testBit t else a.testBit t)) := by
  refine ⟨rfl, ?_, ?_, ?_⟩
  · intro ha
    show ((255 ^^^ 0) &&& a) ||| (0 &&& b) = a
    rw [Nat.xor_zero, Nat.zero_and, Nat.or_zero, land_255_eq a ha]
  · intro hb
    show ((255 ^^^ 255) &&& a) ||| (255 &&& b) = b
    rw [Nat.xor_self, Nat.zero_and, Nat.zero_or, land_255_eq b hb]
  · intro ha hb hs t
    rw [combine_dna, Nat.testBit_or, Nat.testBit_and, Nat.testBit_and,
      Nat.testBit_xor, testBit_255]
    by_cases ht : t < 8
    · rw [decide_eq_true ht]
      cases hsb : s.testBit t <;> simp
    · have h8 : 8 ≤ t := Nat.le_of_not_lt ht
      rw [byte_testBit_high ha h8, byte_testBit_high hb h8,
        byte_testBit_high hs h8]
      simp [ht]

/-- C7 witness: concrete evaluation of every part of `C7_combine_dna_spec`
at `a = 255`, `b = 0`, `s = 15` (the spec's own example). -/
theorem C7_combine_dna_spec_witness :
    combine_dna 255 0 15 = ((255 ^^^ 15) &&& 255) ||| (15 &&& 0) ∧
    combine_dna 255 0 0 = 255 ∧
    combine_dna 255 0 255 = 0 ∧
    (combine_dna 255 0 15).testBit 0 =
      (if (15 : Nat).testBit 0 then (0 : Nat).testBit 0 else (255 : Nat).testBit 0) :=
  ⟨(C7_combine_dna_spec 255 0 15).1,
    (C7_combine_dna_spec 255 0 0).2.1 (by decide),
    (C7_combine_dna_spec 255 0 255).2.2.1 (by decide),
    (C7_combine_dna_spec 255 0 15).2.2.2 (by decide) (by decide) (by decide) 0⟩

/-- A state whose id counter sits at `u32::MAX`, with no kitties. -/
def sAtMax : PalletState :=
  { kitties := fun _ _ => none
    nextKittyId := u32Max
    kittyPrices := fun _ => none
    events := [] }

/-- C6: a successful `get_next_kitty_id` call returns the current counter and
advances it by exactly one, so two consecutive successful calls return
strictly increasing (hence distinct) ids; at `u32::MAX` the call fails with
`KittiesIdOverflow`, and `create` (unconditionally) and `breed` (on every
path) then leave the state — counter included — unchanged while failing. -/
theorem C6_id_allocation (n : Nat) (s : PalletState) (sender : Account)
    (rnd : List Nat) (i j : Nat) :
    (n ≠ u32Max → get_next_kitty_id n = Except.ok (n, n + 1)) ∧
    (∀ i1 c1 i2 c2, get_next_kitty_id n = Except.ok (i1, c1) →
      get_next_kitty_id c1 = Except.ok (i2, c2) → i1 < i2 ∧ i1 ≠ i2) ∧
    get_next_kitty_id u32Max = Except.error KittyError.KittiesIdOverflow ∧
    (s.nextKittyId = u32Max →
      create sender rnd s =
        (s, some (DispatchError.pallet KittyError.KittiesIdOverflow)) ∧
      (breed sender rnd i j s).1 = s ∧ (breed sender rnd i j s).2.isSome) := by
  refine ⟨?_, ?_, ?_, ?_⟩
  · intro h
    simp [get_next_kitty_id, h]
  · intro i1 c1 i2 c2 h1 h2
    by_cases hn : n = u32Max
    · simp [get_next_kitty_id, hn] at h1
    · simp only [get_next_kitty_id, if_neg hn, Except.ok.injEq, Prod.mk.injEq] at h1
      by_cases hc : c1 = u32Max
      · simp [get_next_kitty_id, hc] at h2
      · simp only [get_next_kitty_id, if_neg hc, Except.ok.injEq, Prod.mk.injEq] at h2
        omega
  · simp [get_next_kitty_id]
  · intro h
    refine ⟨?_, ?_⟩
    · simp [create, h, get_next_kitty_id]
    · cases hk1 : s.kitties sender i with
      | none => simp [breed, hk1]
      | some k1 =>
        cases hk2 : s.kitties sender j with
        | none => simp [breed, hk1, hk2]
        | some k2 =>
          by_cases hg : k1.gender = k2.gender
          · simp [breed, hk1, hk2, hg]
          · simp [breed, hk1, hk2, hg, h, get_next_kitty_id]

/-- C6 witness: `C6_id_allocation` evaluated with counter `0` (two successive
allocations give ids `0 < 1`) and on `sAtMax` (overflow aborts `create`). -/
theorem C6_id_allocation_witness :
    get_next_kitty_id 0 = Except.ok (0, 1) ∧
    ((0 : Nat) < 1 ∧ (0 : Nat) ≠ 1) ∧
    get_next_kitty_id u32Max = Except.error KittyError.KittiesIdOverflow ∧
    create 100 [] sAtMax =
      (sAtMax, some (DispatchError.pallet KittyError.KittiesIdOverflow)) := by
  have h := C6_id_allocation 0 sAtMax 100 [] 0 1
  have h2 := C6_id_allocation 1 sAtMax 100 [] 0 1
  exact ⟨h.1 (by decide),
    h.2.1 0 1 1 2 (h.1 (by decide)) (h2.1 (by decide)),
    h.2.2.1,
    (h.2.2.2 rfl).1⟩

end Kitties

namespace Kitties

/-- C8: for an owned kitty, `transfer(owner, owner, id)` succeeds and returns
the state completely unchanged — ownership map, price map, counter and event
log — because the self-transfer branch only re-writes the slot it read and
deposits nothing; for an unowned id it fails with `KittenNotFound`. -/
theorem C8_transfer_self_noop (s : PalletState) (owner : Account) (id : Nat) :
    (∀ k, s.kitties owner id = some k → transfer owner id owner s = (s, none)) ∧
    (s.kitties owner id = none →
      transfer owner id owner s =
        (s, some (DispatchError.pallet KittyError.KittenNotFound))) := by
  constructor
  · intro k hk
    have hins : insertKitty s.kitties owner id k = s.kitties := by
      funext a2 i2
      by_cases h : a2 = owner ∧ i2 = id
      · obtain ⟨ha, hi⟩ := h
        subst ha
        subst hi
        simp [insertKitty, hk]
      · simp [insertKitty, h]
    simp [transfer, hk, hins]
  · intro hk
    simp [transfer, hk]

/-- A market state: account 1 owns kitty 0 (all-zero DNA), listed at 5. -/
def sMarket : PalletState :=
  { kitties := insertKitty (fun _ _ => none) 1 0 ⟨List.replicate 16 0⟩
    nextKittyId := 1
    kittyPrices := writePrice (fun _ => none) 0 (some 5)
    events := [] }

/-- C8 witness: `C8_transfer_self_noop` on `sMarket`, at the owned id 0 and
the unowned id 9. -/
theorem C8_transfer_self_noop_witness :
    transfer 1 0 1 sMarket = (sMarket, none) ∧
    transfer 1 9 1 sMarket =
      (sMarket, some (DispatchError.pallet KittyError.KittenNotFound)) :=
  ⟨(C8_transfer_self_noop sMarket 1 0).1 ⟨List.replicate 16 0⟩ rfl,
    (C8_transfer_self_noop sMarket 1 9).2 rfl⟩

/-- C2 counterexample: in `sMarket`, the non-self transfer of kitty 0 from
account 1 to account 2 succeeds and moves ownership, yet the listing for
kitty 0 is still present at its old price 5 — the claim's "no listing exists
for `kitty_id`" is false on the code, which never touches `KittyPrices` in
`transfer`. -/
theorem C2_counterexample :
    (transfer 1 0 2 sMarket).2 = none ∧
    (transfer 1 0 2 sMarket).1.kitties 2 0 = some ⟨List.replicate 16 0⟩ ∧
    (transfer 1 0 2 sMarket).1.kitties 1 0 = none ∧
    (transfer 1 0 2 sMarket).1.kittyPrices 0 = some 5 := by
  refine ⟨rfl, by decide, by decide, by decide⟩

/-- C2 (amended): a successful non-self `transfer(owner, new_owner, id)`
moves the ownership record to `new_owner` and removes it from `owner`, but
leaves the listing for `id` exactly as it was before the call (the source's
`transfer` never modifies `KittyPrices`). -/
theorem C2_transfer_moves_ownership_keeps_listing (s : PalletState)
    (owner newOwner : Account) (id : Nat) (k : Kitty) (p : Nat)
    (hk : s.kitties owner id = some k) (hne : owner ≠ newOwner)
    (hp : s.kittyPrices id = some p) :
    (transfer owner id newOwner s).2 = none ∧
    (transfer owner id newOwner s).1.kitties newOwner id = some k ∧
    (transfer owner id newOwner s).1.kitties owner id = none ∧
    (transfer owner id newOwner s).1.kittyPrices id = some p := by
  have hne2 : ¬ (newOwner = owner) := fun h => hne h.symm
  refine ⟨?_, ?_, ?_, ?_⟩ <;>
    simp [transfer, hk, hne, removeKitty, insertKitty, hne2, hp]

/-- C2 witness: `C2_transfer_moves_ownership_keeps_listing` on `sMarket`
(account 1 transfers listed kitty 0 to account 2). -/
theorem C2_transfer_moves_ownership_keeps_listing_witness :
    (transfer 1 0 2 sMarket).2 = none ∧
    (transfer 1 0 2 sMarket).1.kitties 2 0 = some ⟨List.replicate 16 0⟩ ∧
    (transfer 1 0 2 sMarket).1.kitties 1 0 = none ∧
    (transfer 1 0 2 sMarket).1.kittyPrices 0 = some 5 :=
  C2_transfer_moves_ownership_keeps_listing sMarket 1 2 0
    ⟨List.replicate 16 0⟩ 5 rfl (by decide) rfl

end Kitties

namespace Kitties

/-- A state where account 7 owns a Male kitty at id 0 and a Female kitty at
id 1, with the id counter at `u32::MAX`. -/
def sBreedAtMax : PalletState :=
  { kitties := insertKitty (insertKitty (fun _ _ => none) 7 0 ⟨List.replicate 16 0⟩)
      7 1 ⟨1 :: List.replicate 15 0⟩
    nextKittyId := u32Max
    kittyPrices := fun _ => none
    events := [] }

/-- The same two parents with the id counter at 2. -/
def sBreedSmall : PalletState :=
  { kitties := insertKitty (insertKitty (fun _ _ => none) 7 0 ⟨List.replicate 16 0⟩)
      7 1 ⟨1 :: List.replicate 15 0⟩
    nextKittyId := 2
    kittyPrices := fun _ => none
    events := [] }

/-- C5 counterexample: account 7 owns kitty 0 (Male) and kitty 1 (Female) —
differing derived genders — yet with the id counter at `u32::MAX`,
`breed(7, 0, 1)` fails with `KittiesIdOverflow` instead of "always
succeeding". -/
theorem C5_counterexample :
    Kitty.gender ⟨List.replicate 16 0⟩ ≠ Kitty.gender ⟨1 :: List.replicate 15 0⟩ ∧
    sBreedAtMax.kitties 7 0 = some ⟨List.replicate 16 0⟩ ∧
    sBreedAtMax.kitties 7 1 = some ⟨1 :: List.replicate 15 0⟩ ∧
    breed 7 (List.replicate 16 0) 0 1 sBreedAtMax =
      (sBreedAtMax, some (DispatchError.pallet KittyError.KittiesIdOverflow)) := by
  refine ⟨by decide, by decide, by decide, rfl⟩

/-- C5 (amended): when the caller owns both parents, breeding two kitties of
identical derived gender always fails with `SameGenderBreed`; breeding two of
differing gender succeeds *provided the id counter is not at `u32::MAX`*
(otherwise it fails with `KittiesIdOverflow`), and then stores the child
under a freshly allocated id — distinct from both parents' ids whenever
those are below the counter, as they are in every state reachable from
genesis (see `idsBelowCounter_*`). -/
theorem C5_breed_gender (s : PalletState) (caller : Account) (rnd : List Nat)
    (i j : Nat) (k1 k2 : Kitty)
    (h1 : s.kitties caller i = some k1) (h2 : s.kitties caller j = some k2) :
    (k1.gender = k2.gender →
      breed caller rnd i j s =
        (s, some (DispatchError.pallet KittyError.SameGenderBreed))) ∧
    (k1.gender ≠ k2.gender → s.nextKittyId ≠ u32Max →
      (breed caller rnd i j s).2 = none ∧
      (breed caller rnd i j s).1.kitties caller s.nextKittyId =
        some ⟨crossover k1.dna k2.dna rnd⟩ ∧
      (i < s.nextKittyId → j < s.nextKittyId →
        s.nextKittyId ≠ i ∧ s.nextKittyId ≠ j)) := by
  constructor
  · intro hg
    simp [breed, h1, h2, hg]
  · intro hg hmax
    refine ⟨?_, ?_, ?_⟩
    · simp [breed, h1, h2, hg, get_next_kitty_id, hmax]
    · simp [breed, h1, h2, hg, get_next_kitty_id, hmax, insertKitty]
    · intro hi hj
      omega

/-- C5 witness: `C5_breed_gender` on `sBreedSmall` — the same-gender pair
(0, 0) fails with `SameGenderBreed`, the differing pair (0, 1) succeeds and
stores the child at the fresh id 2, distinct from 0 and 1. -/
theorem C5_breed_gender_witness :
    breed 7 (List.replicate 16 3) 0 0 sBreedSmall =
      (sBreedSmall, some (DispatchError.pallet KittyError.SameGenderBreed)) ∧
    (breed 7 (List.replicate 16 3) 0 1 sBreedSmall).2 = none ∧
    (breed 7 (List.replicate 16 3) 0 1 sBreedSmall).1.kitties 7 2 =
      some ⟨crossover (List.replicate 16 0) (1 :: List.replicate 15 0)
        (List.replicate 16 3)⟩ ∧
    ((2 : Nat) ≠ 0 ∧ (2 : Nat) ≠ 1) := by
  have hsame := C5_breed_gender sBreedSmall 7 (List.replicate 16 3) 0 0
    ⟨List.replicate 16 0⟩ ⟨List.replicate 16 0⟩ (by decide) (by decide)
  have hdiff := C5_breed_gender sBreedSmall 7 (List.replicate 16 3) 0 1
    ⟨List.replicate 16 0⟩ ⟨1 :: List.replicate 15 0⟩ (by decide) (by decide)
  have hd := hdiff.2 (by decide) (by decide)
  exact ⟨hsame.1 rfl, hd.1, hd.2.1, hd.2.2 (by decide) (by decide)⟩

/-- C10: `breed` rejects a missing parent — including one owned by another
account, indistinguishable here because the lookup is owner-scoped — with
`KittenNotFound` and no state change; breeding an owned kitty with itself
always fails with `SameGenderBreed`; and a successful breed stores the child
under the caller at the old counter value while every other account's
records are untouched. -/
theorem C10_breed_ownership (s : PalletState) (caller : Account)
    (rnd : List Nat) (i j : Nat) :
    ((s.kitties caller i = none ∨ s.kitties caller j = none) →
      breed caller rnd i j s =
        (s, some (DispatchError.pallet KittyError.KittenNotFound))) ∧
    (∀ k, s.kitties caller i = some k →
      breed caller rnd i i s =
        (s, some (DispatchError.pallet KittyError.SameGenderBreed))) ∧
    ((breed caller rnd i j s).2 = none →
      ∃ child : Kitty,
        (breed caller rnd i j s).1.kitties caller s.nextKittyId = some child ∧
        ∀ a id2, a ≠ caller →
          (breed caller rnd i j s).1.kitties a id2 = s.kitties a id2) := by
  refine ⟨?_, ?_, ?_⟩
  · intro h
    cases hk1 : s.kitties caller i with
    | none => simp [breed, hk1]
    | some k1 =>
      cases hk2 : s.kitties caller j with
      | none => simp [breed, hk1, hk2]
      | some k2 =>
        rcases h with h | h
        · rw [hk1] at h
          exact Option.noConfusion h
        · rw [hk2] at h
          exact Option.noConfusion h
  · intro k hk
    simp [breed, hk]
  · intro hs
    cases hk1 : s.kitties caller i with
    | none => simp [breed, hk1] at hs
    | some k1 =>
      cases hk2 : s.kitties caller j with
      | none => simp [breed, hk1, hk2] at hs
      | some k2 =>
        by_cases hg : k1.gender = k2.gender
        · simp [breed, hk1, hk2, hg] at hs
        · by_cases hmax : s.nextKittyId = u32Max
          · simp [breed, hk1, hk2, hg, get_next_kitty_id, hmax] at hs
          · refine ⟨⟨crossover k1.dna k2.dna rnd⟩, ?_, ?_⟩
            · simp [breed, hk1, hk2, hg, get_next_kitty_id, hmax, insertKitty]
            · intro a id2 ha
              simp [breed, hk1, hk2, hg, get_next_kitty_id, hmax, insertKitty, ha]

/-- C10 witness: `C10_breed_ownership` on `sBreedSmall` — parent id 9 is
missing (`KittenNotFound`), self-breeding kitty 0 gives `SameGenderBreed`,
and the successful breed of (0, 1) leaves account 8's (empty) records
untouched while the child sits at id 2 under account 7. -/
theorem C10_breed_ownership_witness :
    breed 7 (List.replicate 16 3) 0 9 sBreedSmall =
      (sBreedSmall, some (DispatchError.pallet KittyError.KittenNotFound)) ∧
    breed 7 (List.replicate 16 3) 0 0 sBreedSmall =
      (sBreedSmall, some (DispatchError.pallet KittyError.SameGenderBreed)) ∧
    (∃ child : Kitty,
      (breed 7 (List.replicate 16 3) 0 1 sBreedSmall).1.kitties 7 2 = some child ∧
      ∀ a id2, a ≠ 7 →
        (breed 7 (List.replicate 16 3) 0 1 sBreedSmall).1.kitties a id2 =
          sBreedSmall.kitties a id2) := by
  have h01 := C10_breed_ownership sBreedSmall 7 (List.replicate 16 3) 0 1
  have h09 := C10_breed_ownership sBreedSmall 7 (List.replicate 16 3) 0 9
  exact ⟨h09.1 (Or.inr rfl),
    h01.2.1 ⟨List.replicate 16 0⟩ rfl,
    h01.2.2 rfl⟩

end Kitties

namespace Kitties

/-- A currency model for witnesses: the state is the amount received so far
by the seller; a transfer always succeeds and adds the amount. -/
def payAdd : Nat → Account → Account → Nat → Option Nat :=
  fun c _ _ amount => some (c + amount)

/-- A currency model for witnesses in which every transfer fails
(e.g. the buyer has insufficient funds). -/
def payFail : Unit → Account → Account → Nat → Option Unit :=
  fun _ _ _ _ => none

/-- C4: `buy` fails with `BuyFromSelf` whenever `buyer = owner`; with
`NotForSale` whenever the owner holds the kitty but no listing exists; and
with `PriceTooLow` whenever a listing at `p` exists and `max_price < p`.
In each case the full result equals `((s, c), some error)`: the error is
returned and neither pallet nor currency state is mutated. -/
theorem C4_buy_error_cases {Cur : Type}
    (pay : Cur → Account → Account → Nat → Option Cur)
    (buyer owner : Account) (kittyId maxPrice : Nat) (s : PalletState) (c : Cur) :
    (buyer = owner →
      buy pay buyer owner kittyId maxPrice s c =
        ((s, c), some (DispatchError.pallet KittyError.BuyFromSelf))) ∧
    (buyer ≠ owner → (s.kitties owner kittyId).isSome →
      s.kittyPrices kittyId = none →
      buy pay buyer owner kittyId maxPrice s c =
        ((s, c), some (DispatchError.pallet KittyError.NotForSale))) ∧
    (∀ p, buyer ≠ owner → (s.kitties owner kittyId).isSome →
      s.kittyPrices kittyId = some p → maxPrice < p →
      buy pay buyer owner kittyId maxPrice s c =
        ((s, c), some (DispatchError.pallet KittyError.PriceTooLow))) := by
  refine ⟨?_, ?_, ?_⟩
  · intro h
    simp [buy, h]
  · intro hne hk hp
    obtain ⟨k, hk2⟩ := Option.isSome_iff_exists.mp hk
    simp [buy, hne, hk2, hp]
  · intro p hne hk hp hlt
    obtain ⟨k, hk2⟩ := Option.isSome_iff_exists.mp hk
    simp [buy, hne, hk2, hp, hlt]

/-- Like `sMarket` but with no listing for kitty 0. -/
def sUnlisted : PalletState :=
  { kitties := insertKitty (fun _ _ => none) 1 0 ⟨List.replicate 16 0⟩
    nextKittyId := 1
    kittyPrices := fun _ => none
    events := [] }

/-- C4 witness: `C4_buy_error_cases` evaluated on concrete states — a
self-buy on `sMarket`, a buy of the unlisted kitty in `sUnlisted`, and a buy
on `sMarket` with `max_price = 3` below the listed price 5. -/
theorem C4_buy_error_cases_witness :
    buy payAdd 1 1 0 10 sMarket 0 =
      ((sMarket, 0), some (DispatchError.pallet KittyError.BuyFromSelf)) ∧
    buy payAdd 2 1 0 10 sUnlisted 0 =
      ((sUnlisted, 0), some (DispatchError.pallet KittyError.NotForSale)) ∧
    buy payAdd 2 1 0 3 sMarket 0 =
      ((sMarket, 0), some (DispatchError.pallet KittyError.PriceTooLow)) :=
  ⟨(C4_buy_error_cases payAdd 1 1 0 10 sMarket 0).1 rfl,
    (C4_buy_error_cases payAdd 2 1 0 10 sUnlisted 0).2.1 (by decide) (by decide) rfl,
    (C4_buy_error_cases payAdd 2 1 0 3 sMarket 0).2.2 5 (by decide) (by decide)
      rfl (by decide)⟩

/-- C3: when the owner holds the listed kitty, the buyer differs from the
owner, `max_price` covers the listed price `p`, and the currency transfer of
exactly `p` from buyer to owner succeeds (yielding currency state `c2`),
`buy` succeeds; afterwards the kitty sits under the buyer, the owner's
record is gone, the listing is cleared, and the currency state is exactly
`c2`. -/
theorem C3_buy_success {Cur : Type}
    (pay : Cur → Account → Account → Nat → Option Cur)
    (buyer owner : Account) (kittyId maxPrice : Nat) (s : PalletState) (c : Cur)
    (k : Kitty) (p : Nat) (c2 : Cur)
    (hne : buyer ≠ owner)
    (hk : s.kitties owner kittyId = some k)
    (hp : s.kittyPrices kittyId = some p)
    (hmax : p ≤ maxPrice)
    (hpay : pay c buyer owner p = some c2) :
    (buy pay buyer owner kittyId maxPrice s c).2 = none ∧
    (buy pay buyer owner kittyId maxPrice s c).1.1.kitties buyer kittyId = some k ∧
    (buy pay buyer owner kittyId maxPrice s c).1.1.kitties owner kittyId = none ∧
    (buy pay buyer owner kittyId maxPrice s c).1.1.kittyPrices kittyId = none ∧
    (buy pay buyer owner kittyId maxPrice s c).1.2 = c2 := by
  have hnlt : ¬ maxPrice < p := Nat.not_lt.mpr hmax
  refine ⟨?_, ?_, ?_, ?_, ?_⟩ <;>
    simp [buy, hne, hk, hp, hnlt, hpay, insertKitty, removeKitty, writePrice]

/-- C3 witness: on `sMarket`, buyer 2 buys kitty 0 from owner 1 at listed
price 5 with `max_price = 10` under the always-succeeding currency `payAdd`;
the owner has received exactly 5. -/
theorem C3_buy_success_witness :
    (buy payAdd 2 1 0 10 sMarket 0).2 = none ∧
    (buy payAdd 2 1 0 10 sMarket 0).1.1.kitties 2 0 = some ⟨List.replicate 16 0⟩ ∧
    (buy payAdd 2 1 0 10 sMarket 0).1.1.kitties 1 0 = none ∧
    (buy payAdd 2 1 0 10 sMarket 0).1.1.kittyPrices 0 = none ∧
    (buy payAdd 2 1 0 10 sMarket 0).1.2 = 5 :=
  C3_buy_success payAdd 2 1 0 10 sMarket 0 ⟨List.replicate 16 0⟩ 5 5
    (by decide) rfl rfl (by decide) rfl

/-- C1 (what the code actually does): on `sMarket` — owner 1 holds kitty 0
listed at 5 — `buy(buyer 2, owner 1, kitty 0, max_price 10)` with a failing
currency transfer returns the currency error, and the owner's ownership
record and the listing are indeed unchanged; but the direct
`Kitties::insert(&sender, ...)` executed before the fallible payment has
already given the *buyer* an ownership record for kitty 0 too, so the buy is
not all-or-nothing: the ownership sub-operation is (partially) observable
after the payment failure. -/
theorem C1_buy_payment_failure_leaves_buyer_record :
    (buy payFail 2 1 0 10 sMarket ()).2 = some DispatchError.currency ∧
    (buy payFail 2 1 0 10 sMarket ()).1.1.kitties 1 0 =
      some ⟨List.replicate 16 0⟩ ∧
    (buy payFail 2 1 0 10 sMarket ()).1.1.kittyPrices 0 = some 5 ∧
    (buy payFail 2 1 0 10 sMarket ()).1.1.kitties 2 0 =
      some ⟨List.replicate 16 0⟩ := by
  refine ⟨rfl, by decide, by decide, by decide⟩

/-- C9: `set_price` fails with `KittenNotFound` (and no mutation) unless the
sender owns the kitty; when the sender owns it, it succeeds unconditionally
and the listing slot afterwards holds exactly `new_price` (set for `some`,
cleared for `none`); and after `set_price(owner, id, None)` a buy of `id` by
any other account fails with `NotForSale` and mutates nothing further. -/
theorem C9_set_price_spec {Cur : Type}
    (pay : Cur → Account → Account → Nat → Option Cur)
    (owner buyer : Account) (kittyId maxPrice : Nat) (np : Option Nat)
    (s : PalletState) (c : Cur) :
    ((s.kitties owner kittyId).isSome = false →
      set_price owner kittyId np s =
        (s, some (DispatchError.pallet KittyError.KittenNotFound))) ∧
    ((s.kitties owner kittyId).isSome →
      (set_price owner kittyId np s).2 = none ∧
      (set_price owner kittyId np s).1.kittyPrices kittyId = np) ∧
    ((s.kitties owner kittyId).isSome → buyer ≠ owner →
      buy pay buyer owner kittyId maxPrice ((set_price owner kittyId none s).1) c =
        (((set_price owner kittyId none s).1, c),
          some (DispatchError.pallet KittyError.NotForSale))) := by
  refine ⟨?_, ?_, ?_⟩
  · intro h
    simp [set_price, h]
  · intro h
    refine ⟨?_, ?_⟩ <;> simp [set_price, h, writePrice]
  · intro h hne
    obtain ⟨k, hk⟩ := Option.isSome_iff_exists.mp h
    simp [set_price, h, buy, hne, hk, writePrice]

/-- C9 witness: `C9_set_price_spec` on `sMarket` — account 2 does not own
kitty 0 (`KittenNotFound`); the owner re-prices kitty 0 to 9; and after the
owner clears the price, account 2's buy fails with `NotForSale`. -/
theorem C9_set_price_spec_witness :
    set_price 2 0 (some 9) sMarket =
      (sMarket, some (DispatchError.pallet KittyError.KittenNotFound)) ∧
    ((set_price 1 0 (some 9) sMarket).2 = none ∧
      (set_price 1 0 (some 9) sMarket).1.kittyPrices 0 = some 9) ∧
    buy payAdd 2 1 0 10 ((set_price 1 0 none sMarket).1) 0 =
      (((set_price 1 0 none sMarket).1, 0),
        some (DispatchError.pallet KittyError.NotForSale)) :=
  ⟨(C9_set_price_spec payAdd 2 2 0 10 (some 9) sMarket 0).1 (by decide),
    (C9_set_price_spec payAdd 1 2 0 10 (some 9) sMarket 0).2.1 (by decide),
    (C9_set_price_spec payAdd 1 2 0 10 none sMarket 0).2.2 (by decide) (by decide)⟩

end Kitties

namespace Kitties

/-! ## The ledger invariant: every stored kitty id is below the counter

These lemmas justify the `i < s.nextKittyId` hypotheses of the breeding
theorem: the property holds at genesis and is preserved by every
dispatchable, so it holds in every reachable state. -/

/-- Every id holding a kitty, under any account, is below `nextKittyId`. -/
def IdsBelowCounter (s : PalletState) : Prop :=
  ∀ a i, (s.kitties a i).isSome → i < s.nextKittyId

/-- Inserting at an id below the bound preserves the id bound. -/
theorem insertKitty_bound {m : Account → Nat → Option Kitty} {a0 i0 : Nat}
    {k : Kitty} {n : Nat} (hm : ∀ a i, (m a i).isSome → i < n) (h0 : i0 < n) :
    ∀ a i, ((insertKitty m a0 i0 k) a i).isSome → i < n := by
  intro a i h
  simp only [insertKitty] at h
  by_cases hc : a = a0 ∧ i = i0
  · exact hc.2 ▸ h0
  · rw [if_neg hc] at h
    exact hm a i h

/-- Removing a slot preserves the id bound. -/
theorem removeKitty_bound {m : Account → Nat → Option Kitty} {a0 i0 : Nat}
    {n : Nat} (hm : ∀ a i, (m a i).isSome → i < n) :
    ∀ a i, ((removeKitty m a0 i0) a i).isSome → i < n := by
  intro a i h
  simp only [removeKitty] at h
  by_cases hc : a = a0 ∧ i = i0
  · rw [if_pos hc] at h
    simp at h
  · rw [if_neg hc] at h
    exact hm a i h

/-- The empty genesis state satisfies the invariant. -/
theorem idsBelowCounter_genesis :
    IdsBelowCounter ⟨fun _ _ => none, 0, fun _ => none, []⟩ := by
  intro a i h
  simp at h

/-- `create` preserves the invariant. -/
theorem idsBelowCounter_create (s : PalletState) (sender : Account)
    (rnd : List Nat) (hs : IdsBelowCounter s) :
    IdsBelowCounter (create sender rnd s).1 := by
  by_cases hmax : s.nextKittyId = u32Max
  · simpa [create, get_next_kitty_id, hmax] using hs
  · intro a i h
    simp only [create, get_next_kitty_id, if_neg hmax] at h ⊢
    exact insertKitty_bound (n := s.nextKittyId + 1)
      (fun a2 i2 h2 => Nat.lt_succ_of_lt (hs a2 i2 h2)) (Nat.lt_succ_self _) a i h

/-- `breed` preserves the invariant. -/
theorem idsBelowCounter_breed (s : PalletState) (sender : Account)
    (rnd : List Nat) (i j : Nat) (hs : IdsBelowCounter s) :
    IdsBelowCounter (breed sender rnd i j s).1 := by
  cases hk1 : s.kitties sender i with
  | none => simpa [breed, hk1] using hs
  | some k1 =>
    cases hk2 : s.kitties sender j with
    | none => simpa [breed, hk1, hk2] using hs
    | some k2 =>
      by_cases hg : k1.gender = k2.gender
      · simpa [breed, hk1, hk2, hg] using hs
      · by_cases hmax : s.nextKittyId = u32Max
        · simpa [breed, hk1, hk2, hg, get_next_kitty_id, hmax] using hs
        · intro a i2 h
          simp only [breed, hk1, hk2, if_neg hg, get_next_kitty_id,
            if_neg hmax] at h ⊢
          exact insertKitty_bound (n := s.nextKittyId + 1)
            (fun a3 i3 h3 => Nat.lt_succ_of_lt (hs a3 i3 h3))
            (Nat.lt_succ_self _) a i2 h

/-- `transfer` preserves the invariant. -/
theorem idsBelowCounter_transfer (s : PalletState) (sender : Account)
    (kittyId : Nat) (newOwner : Account) (hs : IdsBelowCounter s) :
    IdsBelowCounter (transfer sender kittyId newOwner s).1 := by
  cases hk : s.kitties sender kittyId with
  | none => simpa [transfer, hk] using hs
  | some k =>
    have hid : kittyId < s.nextKittyId := hs sender kittyId (by simp [hk])
    by_cases hself : sender = newOwner
    · intro a i h
      simp only [transfer, hk, if_pos hself] at h ⊢
      exact insertKitty_bound hs hid a i h
    · intro a i h
      simp only [transfer, hk, if_neg hself] at h ⊢
      exact removeKitty_bound (insertKitty_bound hs hid) a i h

/-- `set_price` preserves the invariant (the ledger is untouched). -/
theorem idsBelowCounter_set_price (s : PalletState) (sender : Account)
    (kittyId : Nat) (np : Option Nat) (hs : IdsBelowCounter s) :
    IdsBelowCounter (set_price sender kittyId np s).1 := by
  by_cases h : (s.kitties sender kittyId).isSome
  · intro a i h2
    simp only [set_price, if_pos h] at h2 ⊢
    exact hs a i h2
  · simpa [set_price, h] using hs

/-- `buy` preserves the invariant on every path, the non-atomic
payment-failure path included: the stray buyer record sits at an id that
already held a kitty, hence below the counter. -/
theorem idsBelowCounter_buy {Cur : Type}
    (pay : Cur → Account → Account → Nat → Option Cur)
    (sender owner : Account) (kittyId maxPrice : Nat) (s : PalletState)
    (c : Cur) (hs : IdsBelowCounter s) :
    IdsBelowCounter (buy pay sender owner kittyId maxPrice s c).1.1 := by
  by_cases hself : sender = owner
  · simpa [buy, hself] using hs
  · cases hk : s.kitties owner kittyId with
    | none => simpa [buy, hself, hk] using hs
    | some k =>
      have hid : kittyId < s.nextKittyId := hs owner kittyId (by simp [hk])
      cases hp : s.kittyPrices kittyId with
      | none => simpa [buy, hself, hk, hp] using hs
      | some p =>
        by_cases hlt : maxPrice < p
        · simpa [buy, hself, hk, hp, hlt] using hs
        · cases hpay : pay c sender owner p with
          | none =>
            intro a i h
            simp only [buy, if_neg hself, hk, hp, if_neg hlt, hpay] at h ⊢
            exact insertKitty_bound hs hid a i h
          | some c2 =>
            intro a i h
            simp only [buy, if_neg hself, hk, hp, if_neg hlt, hpay] at h ⊢
            exact removeKitty_bound (insertKitty_bound hs hid) a i h

end Kitties
